import Mathlib

/-!
Verification of the Concurrency-Safe Ledger Engine specification against the
FastAPI_Projects repository.

The repository ships two frontends (a portfolio tracker and a todo app) and a
requirements document for an inventory service.  The ledger engine itself
(Account Store, Ledger Engine, Read Cache, Alert Scanner) is described by the
specification but its implementation is not part of the checked-in sources, so
those components are modelled here directly from the specification text.  The
API client (access-token handling and request construction) and the Dashboard
buy/sell handlers are embedded from the TypeScript sources.
-/

/-! ## Ledger data model -/

/-- Modelled from the spec: section 3, the Account record — the repository does
not contain the ledger implementation, only its requirements document.  An
account is a named signed quantity with a monotonic version stamp and an
updated-at timestamp. -/
structure Account where
  key : String
  quantity : Int
  version : Nat
  updatedAt : Nat
  deriving Repr, DecidableEq

/-- Modelled from the spec: the Account Store is a durable key-to-record
mapping; the reference in-memory implementation is a list of accounts keyed by
their field. -/
abbrev Store := List Account

/-- Modelled from the spec: error taxonomy of section 7. -/
inductive LedgerError where
  | NotFound
  | AlreadyExists
  | InsufficientQuantity
  | VersionConflict
  | ContentionExhausted
  | CompensationFailed
  deriving Repr, DecidableEq

deriving instance DecidableEq for Except

/-- Modelled from the spec: the get operation of the Account Store — the first
record whose key matches, or not-found. -/
def Store.get (s : Store) (key : String) : Option Account :=
  List.find? (fun a => a.key == key) s

/-- Modelled from the spec: create(key, initialQuantity) fails with
AlreadyExists when the key is present; a fresh account starts at version 0. -/
def Store.create (s : Store) (key : String) (initialQuantity : Int) (now : Nat) :
    Except LedgerError Account × Store :=
  match Store.get s key with
  | some _ => (Except.error LedgerError.AlreadyExists, s)
  | none =>
      let a : Account := ⟨key, initialQuantity, 0, now⟩
      (Except.ok a, a :: s)

/-- Modelled from the spec: replace the record with the same key by the given
account, leaving other records untouched. -/
def Store.setAccount (s : Store) (a : Account) : Store :=
  List.map (fun b => if b.key == a.key then a else b) s

/-- Modelled from the spec: the single atomic primitive of section 4.1 —
compare-and-swap writes the new quantity only when the stored version equals
the expected one, incrementing the version and stamping updatedAt. -/
def Store.compareAndSwap (s : Store) (key : String) (expectedVersion : Nat)
    (newQuantity : Int) (now : Nat) : Except LedgerError Account × Store :=
  match Store.get s key with
  | none => (Except.error LedgerError.NotFound, s)
  | some a =>
      if a.version = expectedVersion then
        let a2 : Account := ⟨a.key, newQuantity, a.version + 1, now⟩
        (Except.ok a2, Store.setAccount s a2)
      else (Except.error LedgerError.VersionConflict, s)

/-- Modelled from the spec: the policy options recognised by applyDelta. -/
structure Policy where
  allowNegative : Bool := false
  maxRetries : Nat := 5

/-- Modelled from the spec: the read-compute-CAS-retry loop of section 4.2.
Interleaving with concurrent writers is made explicit by an interference
function applied to the store between the read of step 1 and the CAS of
step 4; the sequential case instantiates it with the identity.  The result
carries the final store and the number of CAS attempts performed.  Step 3
rejects a negative proposal immediately; step 5 retries a VersionConflict
from a fresh read; an exhausted fuel budget yields ContentionExhausted. -/
def applyDeltaLoop (key : String) (delta : Int) (allowNegative : Bool)
    (intf : Nat → Store → Store) (now : Nat) :
    Nat → Nat → Store → Except LedgerError Account × Store × Nat
  | _, 0, s => (Except.error LedgerError.ContentionExhausted, s, 0)
  | round, fuel + 1, s =>
      match Store.get s key with
      | none => (Except.error LedgerError.NotFound, s, 0)
      | some a =>
          let proposed := a.quantity + delta
          if allowNegative = false ∧ proposed < 0 then
            (Except.error LedgerError.InsufficientQuantity, s, 0)
          else
            let s1 := intf round s
            match Store.compareAndSwap s1 key a.version proposed now with
            | (Except.ok a2, s2) => (Except.ok a2, s2, 1)
            | (Except.error LedgerError.VersionConflict, s2) =>
                let r := applyDeltaLoop key delta allowNegative intf now (round + 1) fuel s2
                (r.1, r.2.1, r.2.2 + 1)
            | (Except.error e, s2) => (Except.error e, s2, 1)

/-- Modelled from the spec: applyDelta(key, delta, policy) — the engine runs
the OCC loop with a fuel of one initial attempt plus maxRetries retries. -/
def applyDelta (key : String) (delta : Int) (policy : Policy)
    (intf : Nat → Store → Store) (now : Nat) (s : Store) :
    Except LedgerError Account × Store × Nat :=
  applyDeltaLoop key delta policy.allowNegative intf now 0 (policy.maxRetries + 1) s

/-- Modelled from the spec: absence of interference — no concurrent writer
touches the store between read and CAS. -/
def noIntf : Nat → Store → Store := fun _ s => s

/-- Modelled from the spec: an adversarial concurrent writer that commits a
successful write on the account named k between every read and CAS, bumping
its version each round. -/
def bumpIntf : Nat → Store → Store := fun _ t =>
  match Store.get t "k" with
  | some a => Store.setAccount t ⟨a.key, a.quantity, a.version + 1, 0⟩
  | none => t

/-- Modelled from the spec: applyDelta as seen by a caller whose call does not
overlap any concurrent writer. -/
def applyDeltaSeq (key : String) (delta : Int) (policy : Policy) (now : Nat)
    (s : Store) : Except LedgerError Account × Store × Nat :=
  applyDelta key delta policy noIntf now s

/-- Modelled from the spec: section 4.4, the Alert Scanner — a filtered scan
returning every account whose quantity is at most the threshold. -/
def findBelowThreshold (s : Store) (threshold : Int) : List Account :=
  List.filter (fun a => a.quantity ≤ threshold) s

/-- Modelled from the spec: one round of the applyDelta algorithm in which the
step-1 read was served by a Read Cache entry rather than the store — step 2
computes the proposal from the cached quantity, step 3 checks it, and step 4
validates the CAS against the authoritative store version. -/
def applyDeltaCached (key : String) (delta : Int) (policy : Policy)
    (cached : Account) (now : Nat) (s : Store) : Except LedgerError Account × Store :=
  let proposed := cached.quantity + delta
  if policy.allowNegative = false ∧ proposed < 0 then
    (Except.error LedgerError.InsufficientQuantity, s)
  else Store.compareAndSwap s key cached.version proposed now

/-- Modelled from the spec: a sequence of applyDelta calls on one key, applied
in commit order; the flag records whether every call succeeded. -/
def runDeltas (key : String) (policy : Policy) (now : Nat) :
    List Int → Store → Store × Bool
  | [], s => (s, true)
  | d :: rest, s =>
      match applyDeltaSeq key d policy now s with
      | (Except.ok _, s1, _) => runDeltas key policy now rest s1
      | (Except.error _, s1, _) => (s1, false)

/-- Modelled from the spec: the composed multi-account operation of
section 4.2 — debit then credit as two sequential applyDelta calls with
compensation on partial failure: if the credit fails after the debit
succeeded, a reversing delta restores the debited amount and the original
failure is reported; a failing reversal surfaces CompensationFailed. -/
def composedApply (debitKey creditKey : String) (debitDelta creditDelta : Int)
    (policy : Policy) (now : Nat) (s : Store) :
    Except LedgerError (Account × Account) × Store :=
  match applyDeltaSeq debitKey debitDelta policy now s with
  | (Except.error e, s1, _) => (Except.error e, s1)
  | (Except.ok d, s1, _) =>
      match applyDeltaSeq creditKey creditDelta policy now s1 with
      | (Except.ok c, s2, _) => (Except.ok (d, c), s2)
      | (Except.error e, s2, _) =>
          match applyDeltaSeq debitKey (-debitDelta) policy now s2 with
          | (Except.ok _, s3, _) => (Except.error e, s3)
          | (Except.error _, s3, _) => (Except.error LedgerError.CompensationFailed, s3)

/-! ## API client (src/unnamed/part_003, services/api.ts) -/

/-- Client-side token state: the module-level accessToken variable together
with the browser localStorage slot it mirrors. -/
structure ClientState where
  accessToken : Option String
  localStorageToken : Option String
  deriving Repr, DecidableEq

/-- Base URL of the backend, as in the client module. -/
def API_URL : String := "http://localhost:8000"

/-- Embedding of setAccessToken: stores the token in the module variable and
in localStorage. -/
def setAccessToken (token : String) (_st : ClientState) : ClientState :=
  ⟨some token, some token⟩

/-- Embedding of clearAccessToken: nulls the module variable and removes the
localStorage item. -/
def clearAccessToken (_st : ClientState) : ClientState :=
  ⟨none, none⟩

/-- Embedding of getAuthHeaders: the source tests the token for JavaScript
truthiness, so a null token and the empty-string token both yield the empty
header object. -/
def getAuthHeaders (st : ClientState) : List (String × String) :=
  match st.accessToken with
  | some t => if t = "" then [] else [("Authorization", "Bearer " ++ t)]
  | none => []

/-- Shape of an axios request as built by the client: method, url, headers,
and a typed body. -/
structure ApiRequest (β : Type) where
  method : String
  url : String
  headers : List (String × String)
  body : β
  deriving Repr, DecidableEq

/-- Body schema of the add-money endpoint (components/schemas AddMoney). -/
structure AddMoney (α : Type) where
  amount : α
  deriving Repr, DecidableEq

/-- Body schema of the buy and sell endpoints (components/schemas
TradeAsset): a symbol and a numeric quantity, documented as positive for buy
and negative for sell. -/
structure TradeAsset (α : Type) where
  symbol : String
  quantity : α
  deriving Repr, DecidableEq

/-- Embedding of addMoney: POST to /add-money with the amount in the body and
getAuthHeaders as the headers. -/
def addMoneyRequest {α : Type} (st : ClientState) (amount : α) :
    ApiRequest (AddMoney α) :=
  ⟨"POST", API_URL ++ "/add-money", getAuthHeaders st, ⟨amount⟩⟩

/-- Embedding of buyAsset: POST to /buy with symbol and quantity in the body
and getAuthHeaders as the headers. -/
def buyAssetRequest {α : Type} (st : ClientState) (symbol : String)
    (quantity : α) : ApiRequest (TradeAsset α) :=
  ⟨"POST", API_URL ++ "/buy", getAuthHeaders st, ⟨symbol, quantity⟩⟩

/-- Embedding of sellAsset: POST to /sell with symbol and quantity in the body
and getAuthHeaders as the headers. -/
def sellAssetRequest {α : Type} (st : ClientState) (symbol : String)
    (quantity : α) : ApiRequest (TradeAsset α) :=
  ⟨"POST", API_URL ++ "/sell", getAuthHeaders st, ⟨symbol, quantity⟩⟩

/-- Embedding of getPortfolio: GET /portfolio with getAuthHeaders as the
headers and no body. -/
def getPortfolioRequest (st : ClientState) : ApiRequest Unit :=
  ⟨"GET", API_URL ++ "/portfolio", getAuthHeaders st, ()⟩

/-! ## Dashboard trade handlers (src/project_1/frontend/src/components/Dashboard.tsx) -/

/-- Embedding of the toUpperCase call used on the symbol fields. -/
def jsToUpperCase (s : String) : String := s.toUpper

/-- Embedding of handleBuy: the handler returns without a request when either
field is empty (JavaScript falsiness of the empty string), otherwise calls
buyAsset with the upper-cased symbol and the Number conversion of the entered
quantity; the host Number conversion is abstracted as the function num. -/
def handleBuy {α : Type} (num : String → α) (st : ClientState)
    (buySymbol buyQuantity : String) : Option (ApiRequest (TradeAsset α)) :=
  if buySymbol = "" ∨ buyQuantity = "" then none
  else some (buyAssetRequest st (jsToUpperCase buySymbol) (num buyQuantity))

/-- Embedding of handleSell: identical guard, then sellAsset with the
upper-cased symbol and the Number conversion of the entered quantity — the
quantity is passed through unmodified, with no negation. -/
def handleSell {α : Type} (num : String → α) (st : ClientState)
    (sellSymbol sellQuantity : String) : Option (ApiRequest (TradeAsset α)) :=
  if sellSymbol = "" ∨ sellQuantity = "" then none
  else some (sellAssetRequest st (jsToUpperCase sellSymbol) (num sellQuantity))

/-! ## Store lemmas -/

theorem Store.get_key_eq {s : Store} {key : String} {a : Account}
    (h : Store.get s key = some a) : a.key = key := by
  have hp := List.find?_some h
  simpa using hp

theorem Store.get_setAccount_same {s : Store} {key : String} {a a2 : Account}
    (h : Store.get s key = some a) (hk : a2.key = key) :
    Store.get (Store.setAccount s a2) key = some a2 := by
  induction s with
  | nil => simp [Store.get] at h
  | cons b t ih =>
      by_cases hb : b.key = key
      · simp only [Store.get, Store.setAccount, List.map, List.find?]
        rw [hk, hb]
        simp [hk]
      · have hbne : (b.key == key) = false := by simpa using hb
        have h2 : Store.get t key = some a := by
          simpa [Store.get, List.find?, hbne] using h
        have hbne2 : (b.key == a2.key) = false := by
          rw [hk]; exact hbne
        have := ih h2
        simpa [Store.get, Store.setAccount, List.find?, hbne2, hbne] using this

theorem Store.compareAndSwap_error_store {s : Store} {key : String}
    {v : Nat} {q : Int} {now : Nat} {e : LedgerError} {s2 : Store}
    (h : Store.compareAndSwap s key v q now = (Except.error e, s2)) : s2 = s := by
  unfold Store.compareAndSwap at h
  rcases hg : Store.get s key with _ | a
  · rw [hg] at h
    exact (Prod.mk.injEq _ _ _ _ ▸ h).2.symm
  · rw [hg] at h
    by_cases hv : a.version = v
    · simp [hv] at h
    · simp [hv] at h
      exact h.2.symm

theorem applyDeltaSeq_of_get {s : Store} {key : String} {a : Account}
    {delta : Int} {policy : Policy} {now : Nat}
    (hget : Store.get s key = some a) :
    applyDeltaSeq key delta policy now s =
      if policy.allowNegative = false ∧ a.quantity + delta < 0 then
        (Except.error LedgerError.InsufficientQuantity, s, 0)
      else
        (Except.ok (⟨key, a.quantity + delta, a.version + 1, now⟩ : Account),
         Store.setAccount s ⟨key, a.quantity + delta, a.version + 1, now⟩, 1) := by
  have hkey := Store.get_key_eq hget
  unfold applyDeltaSeq applyDelta applyDeltaLoop
  rw [hget]
  by_cases hc : policy.allowNegative = false ∧ a.quantity + delta < 0
  · simp [hc]
  · simp only [hc, if_false, if_neg hc]
    have hcas : Store.compareAndSwap (noIntf 0 s) key a.version (a.quantity + delta) now =
        (Except.ok (⟨key, a.quantity + delta, a.version + 1, now⟩ : Account),
         Store.setAccount s ⟨key, a.quantity + delta, a.version + 1, now⟩) := by
      unfold Store.compareAndSwap noIntf
      rw [hget]
      simp [hkey]
    simp [hcas]

theorem applyDeltaLoop_succ (key : String) (delta : Int) (an : Bool)
    (intf : Nat → Store → Store) (now round fuel : Nat) (s : Store) :
    applyDeltaLoop key delta an intf now round (fuel + 1) s =
      match Store.get s key with
      | none => (Except.error LedgerError.NotFound, s, 0)
      | some a =>
          if an = false ∧ a.quantity + delta < 0 then
            (Except.error LedgerError.InsufficientQuantity, s, 0)
          else
            match Store.compareAndSwap (intf round s) key a.version
                (a.quantity + delta) now with
            | (Except.ok a2, s2) => (Except.ok a2, s2, 1)
            | (Except.error LedgerError.VersionConflict, s2) =>
                let r := applyDeltaLoop key delta an intf now (round + 1) fuel s2
                (r.1, r.2.1, r.2.2 + 1)
            | (Except.error e, s2) => (Except.error e, s2, 1) := rfl

theorem Store.compareAndSwap_ok {s s2 : Store} {key : String} {v : Nat}
    {q : Int} {now : Nat} {b : Account}
    (h : Store.compareAndSwap s key v q now = (Except.ok b, s2)) :
    ∃ a : Account, Store.get s key = some a ∧ a.version = v ∧
      b = ⟨key, q, v + 1, now⟩ ∧ Store.get s2 key = some b := by
  rcases hg : Store.get s key with _ | a
  · simp [Store.compareAndSwap, hg] at h
  · have hkey := Store.get_key_eq hg
    by_cases hv : a.version = v
    · have hdef : Store.compareAndSwap s key v q now =
          (Except.ok (⟨a.key, q, v + 1, now⟩ : Account),
           Store.setAccount s ⟨a.key, q, v + 1, now⟩) := by
        simp [Store.compareAndSwap, hg, hv]
      rw [hdef] at h
      simp only [Prod.mk.injEq, Except.ok.injEq] at h
      obtain ⟨hb, hs2⟩ := h
      have hbval : b = (⟨key, q, v + 1, now⟩ : Account) := by
        rw [← hb, hkey]
      refine ⟨a, rfl, hv, hbval, ?_⟩
      rw [← hs2]
      have hgot : Store.get (Store.setAccount s (⟨a.key, q, v + 1, now⟩ : Account)) key =
          some (⟨a.key, q, v + 1, now⟩ : Account) :=
        Store.get_setAccount_same hg hkey
      rw [hgot, hbval, hkey]
    · simp [Store.compareAndSwap, hg, hv] at h

theorem applyDeltaLoop_ok_spec (key : String) (delta : Int)
    (intf : Nat → Store → Store) (now : Nat) :
    ∀ (fuel round : Nat) (s s2 : Store) (a2 : Account) (n : Nat),
      applyDeltaLoop key delta false intf now round fuel s =
        (Except.ok a2, s2, n) →
      0 ≤ a2.quantity ∧ Store.get s2 key = some a2 := by
  intro fuel
  induction fuel with
  | zero =>
      intro round s s2 a2 n h
      simp [applyDeltaLoop] at h
  | succ fuel ih =>
      intro round s s2 a2 n h
      rw [applyDeltaLoop_succ] at h
      split at h
      · simp at h
      · rename_i a hg
        split at h
        · simp at h
        · rename_i hc
          have hnn : 0 ≤ a.quantity + delta := by
            by_contra hlt
            exact hc ⟨rfl, by omega⟩
          split at h
          · rename_i a3 s3 hcas
            simp only [Prod.mk.injEq, Except.ok.injEq] at h
            obtain ⟨h1, h2, _⟩ := h
            obtain ⟨a4, _, _, hb, hg2⟩ := Store.compareAndSwap_ok hcas
            subst h1
            subst h2
            refine ⟨?_, hg2⟩
            rw [hb]
            exact hnn
          · rename_i s3 hcas
            simp only [Prod.mk.injEq] at h
            obtain ⟨h1, h2, _⟩ := h
            exact ih (round + 1) s3 s2 a2 _ (by rw [← h1, ← h2])
          · simp at h

theorem applyDeltaLoop_attempts_le (key : String) (delta : Int) (an : Bool)
    (intf : Nat → Store → Store) (now : Nat) :
    ∀ (fuel round : Nat) (s : Store) (res : Except LedgerError Account)
      (s2 : Store) (n : Nat),
      applyDeltaLoop key delta an intf now round fuel s = (res, s2, n) →
      n ≤ fuel := by
  intro fuel
  induction fuel with
  | zero =>
      intro round s res s2 n h
      simp only [applyDeltaLoop, Prod.mk.injEq] at h
      omega
  | succ fuel ih =>
      intro round s res s2 n h
      rw [applyDeltaLoop_succ] at h
      split at h
      · simp only [Prod.mk.injEq] at h
        omega
      · split at h
        · simp only [Prod.mk.injEq] at h
          omega
        · split at h
          · simp only [Prod.mk.injEq] at h
            omega
          · rename_i s3 hcas
            simp only [Prod.mk.injEq] at h
            obtain ⟨h1, h2, h3⟩ := h
            have hle := ih (round + 1) s3 _ _ _ rfl
            have h4 : (applyDeltaLoop key delta an intf now
                (round + 1) fuel s3).2.2 + 1 = n := h3
            exact h4 ▸ Nat.succ_le_succ hle
          · simp only [Prod.mk.injEq] at h
            omega

theorem applyDeltaLoop_all_conflict (key : String) (delta : Int)
    (intf : Nat → Store → Store) (now : Nat)
    (hintf : ∀ (n : Nat) (t : Store) (b : Account), Store.get t key = some b →
      ∃ c, Store.get (intf n t) key = some c ∧ c.version ≠ b.version) :
    ∀ (fuel round : Nat) (s : Store) (a : Account), Store.get s key = some a →
      (applyDeltaLoop key delta true intf now round fuel s).1 =
        Except.error LedgerError.ContentionExhausted := by
  intro fuel
  induction fuel with
  | zero => intro round s a _; simp [applyDeltaLoop]
  | succ fuel ih =>
      intro round s a hget
      obtain ⟨c, hc1, hc2⟩ := hintf round s a hget
      have hcas : Store.compareAndSwap (intf round s) key a.version
          (a.quantity + delta) now =
          (Except.error LedgerError.VersionConflict, intf round s) := by
        simp [Store.compareAndSwap, hc1, hc2]
      have hc : ¬((true : Bool) = false ∧ a.quantity + delta < 0) := by
        rintro ⟨h1, _⟩
        exact Bool.noConfusion h1
      rw [applyDeltaLoop_succ]
      simp only [hget, if_neg hc, hcas]
      exact ih (round + 1) (intf round s) c hc1

theorem applyDeltaSeq_none {s : Store} {key : String} {delta : Int}
    {policy : Policy} {now : Nat} (hg : Store.get s key = none) :
    applyDeltaSeq key delta policy now s =
      (Except.error LedgerError.NotFound, s, 0) := by
  unfold applyDeltaSeq applyDelta
  rw [applyDeltaLoop_succ]
  simp [hg]

theorem applyDeltaSeq_error_store {s s2 : Store} {key : String} {delta : Int}
    {policy : Policy} {now : Nat} {e : LedgerError} {n : Nat}
    (h : applyDeltaSeq key delta policy now s = (Except.error e, s2, n)) :
    s2 = s := by
  rcases hg : Store.get s key with _ | a
  · rw [applyDeltaSeq_none hg] at h
    exact (congrArg (fun p => p.2.1) h).symm
  · rw [applyDeltaSeq_of_get hg] at h
    split at h
    · exact (congrArg (fun p => p.2.1) h).symm
    · simp at h

theorem bumpIntf_conflict : ∀ (n : Nat) (t : Store) (b : Account),
    Store.get t "k" = some b →
    ∃ c, Store.get (bumpIntf n t) "k" = some c ∧ c.version ≠ b.version := by
  intro n t b hb
  refine ⟨⟨b.key, b.quantity, b.version + 1, 0⟩, ?_, by simp⟩
  simp only [bumpIntf, hb]
  have hkb : b.key = "k" := Store.get_key_eq hb
  exact Store.get_setAccount_same hb hkb

/-! ## Claim theorems -/

/-- Claim C1: for every account key and every sequence of applyDelta calls on
that key with deltas d1..dn that all succeed, the final quantity equals the
initial quantity plus the sum of the deltas, and the version increases by
exactly n. -/
theorem applyDelta_sequence_conservation (key : String) (policy : Policy)
    (now : Nat) (ds : List Int) :
    ∀ (s s2 : Store) (a : Account), Store.get s key = some a →
      runDeltas key policy now ds s = (s2, true) →
      ∃ a2 : Account, Store.get s2 key = some a2 ∧
        a2.quantity = a.quantity + ds.sum ∧
        a2.version = a.version + ds.length := by
  induction ds with
  | nil =>
      intro s s2 a hget hrun
      simp only [runDeltas, Prod.mk.injEq] at hrun
      exact ⟨a, hrun.1 ▸ hget, by simp, by simp⟩
  | cons d rest ih =>
      intro s s2 a hget hrun
      by_cases hc : policy.allowNegative = false ∧ a.quantity + d < 0
      · have heq := @applyDeltaSeq_of_get s key a d policy now hget
        rw [if_pos hc] at heq
        simp [runDeltas, heq] at hrun
      · have heq := @applyDeltaSeq_of_get s key a d policy now hget
        rw [if_neg hc] at heq
        simp only [runDeltas, heq] at hrun
        have hget2 : Store.get (Store.setAccount s
            (⟨key, a.quantity + d, a.version + 1, now⟩ : Account)) key =
            some ⟨key, a.quantity + d, a.version + 1, now⟩ :=
          Store.get_setAccount_same hget rfl
        obtain ⟨a2, hga2, hq, hv⟩ := ih _ _ _ hget2 hrun
        refine ⟨a2, hga2, ?_, ?_⟩
        · rw [hq, List.sum_cons]
          simp only
          omega
        · rw [hv, List.length_cons]
          simp only
          omega

theorem applyDelta_sequence_conservation_witness :
    ∃ a2 : Account, Store.get [⟨"k", 16, 3, 7⟩] "k" = some a2 ∧
      a2.quantity = 10 + [(3 : Int), -2, 5].sum ∧
      a2.version = 0 + [(3 : Int), -2, 5].length :=
  applyDelta_sequence_conservation "k" ⟨false, 5⟩ 7 [3, -2, 5]
    [⟨"k", 10, 0, 0⟩] [⟨"k", 16, 3, 7⟩] ⟨"k", 10, 0, 0⟩ (by decide) (by decide)

/-- Claim C2: with allowNegative false, every successful applyDelta leaves a
non-negative quantity — whatever interference occurred, the account returned
carries quantity at least 0 and is the record stored at the key. -/
theorem applyDelta_success_nonneg (key : String) (delta : Int) (policy : Policy)
    (intf : Nat → Store → Store) (now : Nat) (s s2 : Store) (a2 : Account)
    (n : Nat) (hpol : policy.allowNegative = false)
    (h : applyDelta key delta policy intf now s = (Except.ok a2, s2, n)) :
    0 ≤ a2.quantity ∧ Store.get s2 key = some a2 := by
  unfold applyDelta at h
  rw [hpol] at h
  exact applyDeltaLoop_ok_spec key delta intf now _ _ _ _ _ _ h

theorem applyDelta_success_nonneg_witness :
    0 ≤ (Account.mk "k" 2 1 0).quantity ∧
      Store.get [⟨"k", 2, 1, 0⟩] "k" = some ⟨"k", 2, 1, 0⟩ :=
  applyDelta_success_nonneg "k" (-3) ⟨false, 5⟩ noIntf 0 [⟨"k", 5, 0, 0⟩]
    [⟨"k", 2, 1, 0⟩] ⟨"k", 2, 1, 0⟩ 1 rfl (by decide)

/-- Claim C3: when allowNegative is false and the read quantity plus delta is
negative, applyDelta fails at once with InsufficientQuantity — zero CAS
attempts are made, the store is returned untouched, and the account record
keeps its quantity and version. -/
theorem applyDelta_insufficient_immediate (key : String) (delta : Int)
    (policy : Policy) (intf : Nat → Store → Store) (now : Nat) (s : Store)
    (a : Account) (hget : Store.get s key = some a)
    (hpol : policy.allowNegative = false) (hneg : a.quantity + delta < 0) :
    applyDelta key delta policy intf now s =
      (Except.error LedgerError.InsufficientQuantity, s, 0) ∧
    Store.get (applyDelta key delta policy intf now s).2.1 key = some a := by
  have hmain : applyDelta key delta policy intf now s =
      (Except.error LedgerError.InsufficientQuantity, s, 0) := by
    unfold applyDelta
    rw [applyDeltaLoop_succ]
    simp [hget, hpol, hneg]
  exact ⟨hmain, by rw [hmain]; exact hget⟩

theorem applyDelta_insufficient_immediate_witness :
    applyDelta "cash-u1" (-50) ⟨false, 5⟩ noIntf 0 [⟨"cash-u1", 30, 0, 0⟩] =
      (Except.error LedgerError.InsufficientQuantity,
        [⟨"cash-u1", 30, 0, 0⟩], 0) ∧
    Store.get (applyDelta "cash-u1" (-50) ⟨false, 5⟩ noIntf 0
        [⟨"cash-u1", 30, 0, 0⟩]).2.1 "cash-u1" = some ⟨"cash-u1", 30, 0, 0⟩ :=
  applyDelta_insufficient_immediate "cash-u1" (-50) ⟨false, 5⟩ noIntf 0
    [⟨"cash-u1", 30, 0, 0⟩] ⟨"cash-u1", 30, 0, 0⟩ (by decide) rfl (by decide)

/-- Claim C4: a successful compareAndSwap against prior version v commits
version v + 1, and on the resulting store a second compareAndSwap against the
same prior version v always fails with VersionConflict — no two successful
mutations commit against the same prior version, and successes on a key are
ordered by strictly increasing version. -/
theorem compareAndSwap_no_double_commit (s s2 : Store) (key : String) (v : Nat)
    (q1 q2 : Int) (now now2 : Nat) (b : Account)
    (h : Store.compareAndSwap s key v q1 now = (Except.ok b, s2)) :
    b.version = v + 1 ∧
    (Store.compareAndSwap s2 key v q2 now2).1 =
      Except.error LedgerError.VersionConflict := by
  obtain ⟨a, hga, hav, hb, hg2⟩ := Store.compareAndSwap_ok h
  constructor
  · rw [hb]
  · have hne : ¬(b.version = v) := by rw [hb]; simp
    simp [Store.compareAndSwap, hg2, hne]

theorem compareAndSwap_no_double_commit_witness :
    (Account.mk "k" 7 1 1).version = 0 + 1 ∧
    (Store.compareAndSwap [⟨"k", 7, 1, 1⟩] "k" 0 9 2).1 =
      Except.error LedgerError.VersionConflict :=
  compareAndSwap_no_double_commit [⟨"k", 5, 0, 0⟩] [⟨"k", 7, 1, 1⟩] "k" 0 7 9 1 2
    ⟨"k", 7, 1, 1⟩ (by decide)

/-- Claim C5: the retry loop is bounded — every applyDelta call performs at
most maxRetries + 1 CAS attempts, and when the account exists and an
interfering writer bumps its version between every read and CAS (so every CAS
attempt returns VersionConflict), the call terminates with the typed failure
ContentionExhausted instead of looping or recursing unboundedly. -/
theorem applyDelta_retries_bounded (key : String) :
    (∀ (delta : Int) (policy : Policy) (intf : Nat → Store → Store) (now : Nat)
       (s s2 : Store) (res : Except LedgerError Account) (n : Nat),
       applyDelta key delta policy intf now s = (res, s2, n) →
       n ≤ policy.maxRetries + 1) ∧
    (∀ (delta : Int) (policy : Policy) (intf : Nat → Store → Store) (now : Nat)
       (s : Store) (a : Account),
       Store.get s key = some a → policy.allowNegative = true →
       (∀ (m : Nat) (t : Store) (b : Account), Store.get t key = some b →
          ∃ c, Store.get (intf m t) key = some c ∧ c.version ≠ b.version) →
       (applyDelta key delta policy intf now s).1 =
         Except.error LedgerError.ContentionExhausted) := by
  constructor
  · intro delta policy intf now s s2 res n h
    exact applyDeltaLoop_attempts_le key delta policy.allowNegative intf now
      _ _ _ _ _ _ h
  · intro delta policy intf now s a hget hpol hintf
    unfold applyDelta
    rw [hpol]
    exact applyDeltaLoop_all_conflict key delta intf now hintf _ _ _ _ hget

theorem applyDelta_retries_bounded_witness :
    (applyDelta "k" 1 ⟨true, 2⟩ bumpIntf 0 [⟨"k", 5, 0, 0⟩]).2.2 ≤ 2 + 1 ∧
    (applyDelta "k" 1 ⟨true, 2⟩ bumpIntf 0 [⟨"k", 5, 0, 0⟩]).1 =
      Except.error LedgerError.ContentionExhausted := by
  constructor
  · exact (applyDelta_retries_bounded "k").1 1 ⟨true, 2⟩ bumpIntf 0
      [⟨"k", 5, 0, 0⟩] _ _ _ rfl
  · exact (applyDelta_retries_bounded "k").2 1 ⟨true, 2⟩ bumpIntf 0
      [⟨"k", 5, 0, 0⟩] ⟨"k", 5, 0, 0⟩ (by decide) rfl bumpIntf_conflict

/-- Claim C6 is refuted as stated: with the store holding quantity 100 at
version 5 and a stale cached snapshot holding quantity 0 at version 3, the
delta -50 is rejected with InsufficientQuantity although the authoritative
record admits it — a stale cache read can cause a terminal business-rule
rejection, which is more than an extra retry. -/
theorem applyDeltaCached_stale_rejects :
    applyDeltaCached "k" (-50) ⟨false, 5⟩ ⟨"k", 0, 3, 0⟩ 9 [⟨"k", 100, 5, 0⟩] =
      (Except.error LedgerError.InsufficientQuantity, [⟨"k", 100, 5, 0⟩]) ∧
    (applyDeltaSeq "k" (-50) ⟨false, 5⟩ 9 [⟨"k", 100, 5, 0⟩]).1 =
      Except.ok ⟨"k", 50, 6, 9⟩ := by decide

/-- Claim C6 (amended): the Read Cache is never the source of truth for a
commit — provided the cached entry is a snapshot of a past state of the
account (a matching version implies a matching quantity), a successful
cache-read round commits a quantity and version computed from the store's
current record, and a version-stale cache read can never commit: it leaves
the store untouched and fails, at worst costing an extra retry — though a
stale quantity can also surface an InsufficientQuantity rejection rather
than a retry. -/
theorem applyDeltaCached_commit_validated (key : String) (delta : Int)
    (policy : Policy) (cached : Account) (now : Nat) (s : Store)
    (astore : Account) (hget : Store.get s key = some astore)
    (hsnap : cached.version = astore.version →
      cached.quantity = astore.quantity) :
    (∀ (b : Account) (s2 : Store),
        applyDeltaCached key delta policy cached now s = (Except.ok b, s2) →
        b.quantity = astore.quantity + delta ∧
        b.version = astore.version + 1) ∧
    (cached.version ≠ astore.version →
        (applyDeltaCached key delta policy cached now s).2 = s ∧
        ∀ b : Account, (applyDeltaCached key delta policy cached now s).1 ≠
          Except.ok b) := by
  constructor
  · intro b s2 h
    unfold applyDeltaCached at h
    dsimp only at h
    split at h
    · simp at h
    · obtain ⟨a, hga, hav, hb, _⟩ := Store.compareAndSwap_ok h
      have haa : a = astore := by
        rw [hget] at hga
        exact (Option.some.inj hga).symm
      have hveq : cached.version = astore.version := by
        rw [← haa]
        exact hav.symm
      have hq := hsnap hveq
      constructor
      · rw [hb, hq]
      · rw [hb, hveq]
  · intro hne
    have hne2 : ¬(astore.version = cached.version) := fun h2 => hne h2.symm
    have hcas : Store.compareAndSwap s key cached.version
        (cached.quantity + delta) now =
        (Except.error LedgerError.VersionConflict, s) := by
      simp [Store.compareAndSwap, hget, hne2]
    unfold applyDeltaCached
    dsimp only
    split
    · exact ⟨rfl, fun b h2 => Except.noConfusion h2⟩
    · rw [hcas]
      exact ⟨rfl, fun b h2 => Except.noConfusion h2⟩

theorem applyDeltaCached_commit_validated_witness :
    (Account.mk "k" 12 3 3).quantity = (Account.mk "k" 7 2 1).quantity + 5 ∧
    (Account.mk "k" 12 3 3).version = (Account.mk "k" 7 2 1).version + 1 :=
  (applyDeltaCached_commit_validated "k" 5 ⟨false, 5⟩ ⟨"k", 7, 2, 99⟩ 3
      [⟨"k", 7, 2, 1⟩] ⟨"k", 7, 2, 1⟩ (by decide) (by decide)).1
    ⟨"k", 12, 3, 3⟩ [⟨"k", 12, 3, 3⟩] (by decide)

/-- Claim C7: findBelowThreshold t returns exactly the accounts whose quantity
is at most t — membership in the scan result is equivalent to membership in
the store together with quantity ≤ t. -/
theorem findBelowThreshold_iff (s : Store) (t : Int) (a : Account) :
    a ∈ findBelowThreshold s t ↔ a ∈ s ∧ a.quantity ≤ t := by
  simp [findBelowThreshold, List.mem_filter]

/-- Claim C8: in the composed debit-then-credit operation, when the debit
succeeds and the credit step fails, the engine issues a reversing delta that
restores the debited account's quantity to its pre-operation value and
reports the credit's original failure. -/
theorem composedApply_compensation (debitKey creditKey : String)
    (debitDelta creditDelta : Int) (policy : Policy) (now : Nat) (s : Store)
    (a : Account) (e : LedgerError)
    (hget : Store.get s debitKey = some a)
    (hdebit : ¬(policy.allowNegative = false ∧ a.quantity + debitDelta < 0))
    (hcomp : ¬(policy.allowNegative = false ∧ a.quantity < 0))
    (hfail : (applyDeltaSeq creditKey creditDelta policy now
        (Store.setAccount s
          ⟨debitKey, a.quantity + debitDelta, a.version + 1, now⟩)).1 =
      Except.error e) :
    (composedApply debitKey creditKey debitDelta creditDelta policy now s).1 =
      Except.error e ∧
    ∃ c : Account,
      Store.get (composedApply debitKey creditKey debitDelta creditDelta policy
        now s).2 debitKey = some c ∧ c.quantity = a.quantity := by
  have heq1 : applyDeltaSeq debitKey debitDelta policy now s =
      (Except.ok (⟨debitKey, a.quantity + debitDelta, a.version + 1, now⟩ :
        Account),
       Store.setAccount s
         ⟨debitKey, a.quantity + debitDelta, a.version + 1, now⟩, 1) := by
    rw [applyDeltaSeq_of_get hget, if_neg hdebit]
  rcases h2 : applyDeltaSeq creditKey creditDelta policy now
      (Store.setAccount s
        ⟨debitKey, a.quantity + debitDelta, a.version + 1, now⟩)
    with ⟨r2, s2, n2⟩
  have hr2 : r2 = Except.error e := by
    rw [h2] at hfail
    exact hfail
  subst hr2
  have hs2 : s2 = Store.setAccount s
      ⟨debitKey, a.quantity + debitDelta, a.version + 1, now⟩ :=
    applyDeltaSeq_error_store h2
  subst hs2
  have hget1 : Store.get (Store.setAccount s
      (⟨debitKey, a.quantity + debitDelta, a.version + 1, now⟩ : Account))
      debitKey = some ⟨debitKey, a.quantity + debitDelta, a.version + 1, now⟩ :=
    Store.get_setAccount_same hget rfl
  have hbq : (⟨debitKey, a.quantity + debitDelta, a.version + 1, now⟩ :
      Account).quantity + -debitDelta = a.quantity := by
    simp
  have hcomp2 : ¬(policy.allowNegative = false ∧
      (⟨debitKey, a.quantity + debitDelta, a.version + 1, now⟩ :
        Account).quantity + -debitDelta < 0) := by
    rw [hbq]
    exact hcomp
  have heq3 : applyDeltaSeq debitKey (-debitDelta) policy now
      (Store.setAccount s
        ⟨debitKey, a.quantity + debitDelta, a.version + 1, now⟩) =
      (Except.ok (⟨debitKey, a.quantity, a.version + 1 + 1, now⟩ : Account),
       Store.setAccount
         (Store.setAccount s
           ⟨debitKey, a.quantity + debitDelta, a.version + 1, now⟩)
         ⟨debitKey, a.quantity, a.version + 1 + 1, now⟩, 1) := by
    rw [applyDeltaSeq_of_get hget1, if_neg hcomp2]
    rw [hbq]
  have hfin : composedApply debitKey creditKey debitDelta creditDelta policy
      now s =
      (Except.error e,
       Store.setAccount
         (Store.setAccount s
           ⟨debitKey, a.quantity + debitDelta, a.version + 1, now⟩)
         ⟨debitKey, a.quantity, a.version + 1 + 1, now⟩) := by
    simp only [composedApply, heq1, h2, heq3]
  rw [hfin]
  refine ⟨rfl, ⟨debitKey, a.quantity, a.version + 1 + 1, now⟩, ?_, rfl⟩
  exact Store.get_setAccount_same hget1 rfl

theorem composedApply_compensation_witness :
    (composedApply "cash" "asset" (-100) 2 ⟨false, 5⟩ 1
        [⟨"cash", 150, 0, 0⟩]).1 = Except.error LedgerError.NotFound ∧
    ∃ c : Account, Store.get (composedApply "cash" "asset" (-100) 2 ⟨false, 5⟩ 1
        [⟨"cash", 150, 0, 0⟩]).2 "cash" = some c ∧
      c.quantity = (Account.mk "cash" 150 0 0).quantity :=
  composedApply_compensation "cash" "asset" (-100) 2 ⟨false, 5⟩ 1
    [⟨"cash", 150, 0, 0⟩] ⟨"cash", 150, 0, 0⟩ LedgerError.NotFound
    (by decide) (by decide) (by decide) (by decide)

/-- Claim C9 is refuted at the empty-string token: getAuthHeaders tests the
stored token for JavaScript truthiness, so after setAccessToken of the empty
string the Authorization header is absent rather than Bearer with an empty
token. -/
theorem getAuthHeaders_empty_token :
    getAuthHeaders (setAccessToken "" ⟨none, none⟩) ≠
      [("Authorization", "Bearer " ++ "")] := by decide

/-- Claim C9 (amended): the authentication header is determined by the stored
token — after setAccessToken with a non-empty token t, getAuthHeaders is the
singleton Authorization header Bearer t; after clearAccessToken, and whenever
no token is stored, it is empty; and addMoney, buyAsset, sellAsset and
getPortfolio each send precisely getAuthHeaders as their request headers. -/
theorem authHeaders_spec :
    (∀ (t : String) (st : ClientState), t ≠ "" →
        getAuthHeaders (setAccessToken t st) =
          [("Authorization", "Bearer " ++ t)]) ∧
    (∀ st : ClientState, getAuthHeaders (clearAccessToken st) = []) ∧
    (∀ st : ClientState, st.accessToken = none → getAuthHeaders st = []) ∧
    (∀ (α : Type) (st : ClientState) (amount : α),
        (addMoneyRequest st amount).headers = getAuthHeaders st) ∧
    (∀ (α : Type) (st : ClientState) (sym : String) (q : α),
        (buyAssetRequest st sym q).headers = getAuthHeaders st) ∧
    (∀ (α : Type) (st : ClientState) (sym : String) (q : α),
        (sellAssetRequest st sym q).headers = getAuthHeaders st) ∧
    (∀ st : ClientState, (getPortfolioRequest st).headers = getAuthHeaders st) := by
  refine ⟨?_, ?_, ?_, ?_, ?_, ?_, ?_⟩
  · intro t st ht
    simp [getAuthHeaders, setAccessToken, ht]
  · intro st
    rfl
  · intro st h
    simp [getAuthHeaders, h]
  · intro α st amount
    rfl
  · intro α st sym q
    rfl
  · intro α st sym q
    rfl
  · intro st
    rfl

theorem authHeaders_spec_witness :
    getAuthHeaders (setAccessToken "tok" ⟨none, none⟩) =
      [("Authorization", "Bearer " ++ "tok")] ∧
    getAuthHeaders (clearAccessToken ⟨some "tok", some "tok"⟩) = [] ∧
    getAuthHeaders ⟨none, none⟩ = [] ∧
    (addMoneyRequest ⟨none, none⟩ (5 : Int)).headers =
      getAuthHeaders ⟨none, none⟩ :=
  ⟨authHeaders_spec.1 "tok" ⟨none, none⟩ (by decide),
   authHeaders_spec.2.1 ⟨some "tok", some "tok"⟩,
   authHeaders_spec.2.2.1 ⟨none, none⟩ rfl,
   authHeaders_spec.2.2.2.1 Int ⟨none, none⟩ 5⟩

/-- Claim C10: a buy or sell submitted with non-empty symbol and quantity
fields produces a request whose body carries the upper-cased entered symbol
and the entered quantity converted by Number and otherwise unmodified — the
sell path sends the same converted quantity as the buy path and never negates
it, even though the backend TradeAsset schema documents quantity as positive
for buy and negative for sell. -/
theorem handleTrade_body_spec (α : Type) (num : String → α) (st : ClientState)
    (sym q : String) (hsym : sym ≠ "") (hq : q ≠ "") :
    handleBuy num st sym q = some ⟨"POST", API_URL ++ "/buy",
      getAuthHeaders st, ⟨jsToUpperCase sym, num q⟩⟩ ∧
    handleSell num st sym q = some ⟨"POST", API_URL ++ "/sell",
      getAuthHeaders st, ⟨jsToUpperCase sym, num q⟩⟩ := by
  constructor
  · simp [handleBuy, buyAssetRequest, hsym, hq]
  · simp [handleSell, sellAssetRequest, hsym, hq]

theorem handleTrade_body_spec_witness :
    handleBuy (fun _ => (2 : Int)) ⟨none, none⟩ "btc" "2" =
      some ⟨"POST", API_URL ++ "/buy", getAuthHeaders ⟨none, none⟩,
        ⟨jsToUpperCase "btc", 2⟩⟩ ∧
    handleSell (fun _ => (2 : Int)) ⟨none, none⟩ "btc" "2" =
      some ⟨"POST", API_URL ++ "/sell", getAuthHeaders ⟨none, none⟩,
        ⟨jsToUpperCase "btc", 2⟩⟩ :=
  handleTrade_body_spec Int (fun _ => 2) ⟨none, none⟩ "btc" "2"
    (by decide) (by decide)
